import Mathlib

/-!
A shallow embedding of the request-authorization pipeline of the
authguidance Node API sample, together with proofs about the embedded
operations.

The embedding follows the source files:
* `src/api/src/plumbing/claimsHandler.js` (ClaimsHandler, WebApi,
  HttpConfiguration) for metadata lookup, introspection and the
  authorization middleware;
* the framework `claimsCache.ts` for the claims cache;
* `BaseCompositionRoot` for strategy selection;
* `framework-api-base/src/errors/errorUtils.ts` for error conversion.

Collaborators whose source is not part of the repository snapshot
(ErrorHandler, ResponseWriter, ClaimsProvider, ClaimsMiddleware,
IssuerMetadata) are modelled from the specification; each such
definition's doc comment says so.
-/

namespace ClaimsHandler

/-- Error categories used by the JS sample's `ErrorHandler`. -/
inductive ApiErrorCode
  | invalidToken
  | introspectionFailure
  | metadataLookupFailure
  | userinfoFailure
  deriving DecidableEq, Repr

/-- A typed API error: a category plus the HTTP status it surfaces as. -/
structure ApiError where
  code : ApiErrorCode
  statusCode : Nat
  deriving DecidableEq, Repr

/-- Modelled from the spec: `ErrorHandler.getTokenExpiredError` (the
`errorHandler.js` module is not in the snapshot).  The spec treats an
expired/revoked token as `TokenInvalid`, a client-facing 401
authentication failure. -/
def getTokenExpiredError : ApiError :=
  { code := ApiErrorCode.invalidToken, statusCode := 401 }

/-- A JavaScript exception flowing through a promise chain: either an
already-typed `ApiError` raised by the sample's own code, or a raw
transport/non-2xx failure raised by `request-promise`. -/
inductive JsError
  | typed (e : ApiError)
  | transport
  deriving DecidableEq, Repr

/-- Modelled from the spec: `ErrorHandler.fromIntrospectionError`.  The
spec maps non-2xx/transport failures from the introspection endpoint to
`UpstreamUnavailable` (a 500 error) and keeps already-typed errors (the
token-expired rejection raised inside the same promise chain) intact,
mirroring the "already handled" pass-through that the in-repository
`ErrorUtils.tryConvertToApiError` uses. -/
def fromIntrospectionError : JsError → ApiError
  | JsError.typed e => e
  | JsError.transport =>
      { code := ApiErrorCode.introspectionFailure, statusCode := 500 }

/-- The claims the sample copies out of an introspection response
(`sub`, `cid`, `scope`). -/
structure TokenClaimsData where
  userId : String
  applicationId : String
  scope : String
  deriving DecidableEq, Repr

/-- The value `_readTokenData` resolves with: the expiry plus claims. -/
structure TokenData where
  exp : Nat
  claims : TokenClaimsData
  deriving DecidableEq, Repr

/-- The outcome of the POST to the introspection endpoint, as seen by the
promise returned from `request-promise`: a 2xx JSON body, or a rejection
for a transport failure / non-2xx status. -/
inductive IntrospectionResult
  | success (active : Bool) (exp : Nat) (sub : String) (cid : String) (scope : String)
  | transportError
  deriving DecidableEq, Repr

/-- Model of `ClaimsHandler._readTokenData`: calls the introspection endpoint; on a
2xx body with `active` false it rejects with the token-expired error,
otherwise resolves with the token data; the trailing `.catch` routes every
rejection (from the request or from the `.then` callback) through
`ErrorHandler.fromIntrospectionError`. -/
def readTokenData : IntrospectionResult → Except ApiError TokenData
  | IntrospectionResult.success active exp sub cid scope =>
      if !active then
        Except.error (fromIntrospectionError (JsError.typed getTokenExpiredError))
      else
        Except.ok { exp := exp
                    claims := { userId := sub, applicationId := cid, scope := scope } }
  | IntrospectionResult.transportError =>
      Except.error (fromIntrospectionError JsError.transport)

end ClaimsHandler

namespace WebApi

/-- JavaScript's `String.prototype.split` with a single-character
separator, on the character list of the string: `""` splits to `[""]`,
and each separator occurrence starts a new (possibly empty) part. -/
def jsSplitChars (sep : Char) : List Char → List (List Char)
  | [] => [[]]
  | c :: rest =>
      match jsSplitChars sep rest with
      | [] => if c = sep then [[], []] else [[c]]
      | w :: ws => if c = sep then [] :: w :: ws else (c :: w) :: ws

/-- JavaScript's `header.split(' ')` as used by `_readAccessToken`. -/
def jsSplit (sep : Char) (s : String) : List String :=
  (jsSplitChars sep s.data).map String.mk

/-- Model of `WebApi._readAccessToken`: reads the `authorization` header (absent
headers arrive as `none`, and JavaScript treats an empty header string as
falsy), splits it on single spaces, and yields the second part exactly
when there are two parts and the first is the literal `Bearer`. -/
def readAccessToken : Option String → Option String
  | none => none
  | some h =>
      if h = "" then none
      else
        match jsSplit ' ' h with
        | [scheme, token] => if scheme = "Bearer" then some token else none
        | _ => none

end WebApi

/-- C4: a token is extracted if and only if the authorization header is
present and splits on spaces into exactly the two parts `Bearer` and the
token; every other header form yields no token. -/
theorem readAccessToken_eq_some_iff (header : Option String) (t : String) :
    WebApi.readAccessToken header = some t ↔
      ∃ h, header = some h ∧ WebApi.jsSplit ' ' h = ["Bearer", t] := by
  constructor
  · intro hx
    cases header with
    | none => simp [WebApi.readAccessToken] at hx
    | some h =>
        refine ⟨h, rfl, ?_⟩
        by_cases hemp : h = ""
        · simp [WebApi.readAccessToken, hemp] at hx
        · simp only [WebApi.readAccessToken, if_neg hemp] at hx
          rcases hsp : WebApi.jsSplit ' ' h with _ | ⟨a, _ | ⟨b, _ | _⟩⟩ <;>
            simp [hsp] at hx
          rcases hx with ⟨hab, hbt⟩
          simp [hab, hbt]
  · rintro ⟨h, rfl, hsp⟩
    have hemp : h ≠ "" := by
      intro he
      rw [he] at hsp
      have hnil : WebApi.jsSplit ' ' "" = [""] := by decide
      rw [hnil] at hsp
      exact absurd (List.head_eq_of_cons_eq hsp) (by decide)
    simp [WebApi.readAccessToken, if_neg hemp, hsp]

/-- C4 witness for `readAccessToken_eq_some_iff` at a concrete header. -/
theorem readAccessToken_eq_some_iff_witness :
    WebApi.readAccessToken (some "Bearer abc123") = some "abc123" :=
  (readAccessToken_eq_some_iff (some "Bearer abc123") "abc123").mpr
    ⟨"Bearer abc123", rfl, by decide⟩

/-- C1: an introspection body with `active = false` fails with the
token-expired (401, `TokenInvalid`) error, a transport/non-2xx failure
fails with the introspection (500, `UpstreamUnavailable`) error, and the
two error values are distinct — the outcomes are never conflated. -/
theorem readTokenData_error_separation :
    (∀ (exp : Nat) (sub cid scope : String),
      ClaimsHandler.readTokenData
          (ClaimsHandler.IntrospectionResult.success false exp sub cid scope) =
        Except.error
          { code := ClaimsHandler.ApiErrorCode.invalidToken, statusCode := 401 }) ∧
    ClaimsHandler.readTokenData ClaimsHandler.IntrospectionResult.transportError =
      Except.error
        { code := ClaimsHandler.ApiErrorCode.introspectionFailure, statusCode := 500 } ∧
    ({ code := ClaimsHandler.ApiErrorCode.invalidToken, statusCode := 401 }
        : ClaimsHandler.ApiError) ≠
      { code := ClaimsHandler.ApiErrorCode.introspectionFailure, statusCode := 500 } :=
  ⟨fun _ _ _ _ => rfl, rfl, by decide⟩

namespace ClaimsCacheModel

/-- The token portion of the cached claims: the cache reads
`claims.token.expiry` (epoch seconds). -/
structure TokenClaims where
  expiry : Nat
  deriving DecidableEq, Repr

/-- The claims object stored through the cache (`ApiClaims`): the token
data plus user attributes resolved by the claims provider. -/
structure ApiClaims where
  token : TokenClaims
  userId : String
  deriving DecidableEq, Repr

/-- Modelled from the spec: the `ClaimsProvider` collaborator interface —
`serialize(claims) -> bytes` and `deserialize(bytes) -> ResolvedClaims`,
used by the cache to store and retrieve claims without coupling the
cache to the claims shape. -/
structure ClaimsProvider where
  serializeToCache : ApiClaims → List Nat
  deserializeFromCache : List Nat → ApiClaims

/-- One `node-cache` entry: the stored serialized value, the time-to-live
it was stored with, and the absolute expiry instant `node-cache` derives
from it (`0` when the ttl is `0`, meaning unlimited). -/
structure CacheEntry where
  value : List Nat
  ttl : Nat
  expiresAt : Nat
  deriving DecidableEq, Repr

/-- The `node-cache` instance held by `ClaimsCache`: the configured
`stdTTL` (maximum time-to-live in seconds) and the keyed entries. -/
structure NodeCache where
  stdTTL : Nat
  entries : List (String × CacheEntry)
  deriving DecidableEq, Repr

/-- Look up the raw entry stored under a key, ignoring expiry. -/
def cacheFind (c : NodeCache) (k : String) : Option CacheEntry :=
  (c.entries.find? (fun p => p.1 == k)).map (fun p => p.2)

/-- The `node-cache`'s liveness check: an entry is expired exactly when its
expiry instant is nonzero and lies strictly before the current time. -/
def entryLive (now : Nat) (e : CacheEntry) : Bool :=
  e.expiresAt == 0 || now ≤ e.expiresAt

/-- The `node-cache` `get`: the stored value when the key is present and the
entry is still live, otherwise a miss. -/
def cacheGet (now : Nat) (c : NodeCache) (k : String) : Option (List Nat) :=
  match cacheFind c k with
  | none => none
  | some e => if entryLive now e then some e.value else none

/-- The `node-cache` `set` with an explicit ttl: stores the value under the
key, replacing any previous entry, with expiry instant `now + ttl`
(or `0`, unlimited, when the ttl is `0`). -/
def cacheSet (now : Nat) (c : NodeCache) (k : String) (v : List Nat) (ttl : Nat) :
    NodeCache :=
  { c with
    entries :=
      (k, { value := v, ttl := ttl, expiresAt := if ttl = 0 then 0 else now + ttl })
        :: c.entries.filter (fun p => p.1 != k) }

/-- Model of `ClaimsCache.getClaimsForToken`: reads the serialized claims from the
cache under the token hash; a miss, or a falsy (empty) stored text,
yields `null`, otherwise the claims are deserialized. -/
def getClaimsForToken (provider : ClaimsProvider) (now : Nat) (c : NodeCache)
    (accessTokenHash : String) : Option ApiClaims :=
  match cacheGet now c accessTokenHash with
  | none => none
  | some claimsText =>
      if claimsText = [] then none
      else some (provider.deserializeFromCache claimsText)

/-- Model of `ClaimsCache.addClaimsForToken`: computes `secondsToCache` as the
token expiry minus the current epoch seconds; only when it is positive,
caps it at the configured `stdTTL` and stores the serialized claims with
that time-to-live. -/
def addClaimsForToken (provider : ClaimsProvider) (now : Nat) (c : NodeCache)
    (accessTokenHash : String) (claims : ApiClaims) : NodeCache :=
  let secondsToCache : Int := (claims.token.expiry : Int) - (now : Int)
  if secondsToCache > 0 then
    let s : Int := if secondsToCache > (c.stdTTL : Int) then (c.stdTTL : Int) else secondsToCache
    cacheSet now c accessTokenHash (provider.serializeToCache claims) s.toNat
  else
    c

end ClaimsCacheModel

namespace ClaimsCacheModel

/-- A concrete executable claims provider used to instantiate theorems
with hypotheses: the expiry followed by the user id's character codes. -/
def sampleProvider : ClaimsProvider where
  serializeToCache c := c.token.expiry :: c.userId.data.map Char.toNat
  deserializeFromCache l :=
    match l with
    | [] => { token := { expiry := 0 }, userId := "" }
    | e :: rest => { token := { expiry := e }, userId := String.mk (rest.map Char.ofNat) }

theorem cacheFind_cacheSet_self (now : Nat) (c : NodeCache) (k : String)
    (v : List Nat) (ttl : Nat) :
    cacheFind (cacheSet now c k v ttl) k =
      some { value := v, ttl := ttl, expiresAt := if ttl = 0 then 0 else now + ttl } := by
  simp [cacheFind, cacheSet, List.find?]

theorem find?_filter_ne (l : List (String × CacheEntry)) (k k' : String)
    (hne : k' ≠ k) :
    (l.filter (fun p => p.1 != k)).find? (fun p => p.1 == k') =
      l.find? (fun p => p.1 == k') := by
  induction l with
  | nil => rfl
  | cons x xs ih =>
      by_cases hxk : x.1 = k
      · have h1 : (x.1 != k) = false := by simp [hxk]
        have h2 : (x.1 == k') = false := by
          simp only [beq_eq_false_iff_ne, ne_eq, hxk]
          exact fun he => hne he.symm
        simp [List.filter_cons, h1, List.find?_cons, h2, ih]
      · have h1 : (x.1 != k) = true := by simp [hxk]
        simp only [List.filter_cons, h1, if_pos, List.find?_cons]
        cases hpx : (x.1 == k') with
        | true => rfl
        | false => exact ih

theorem cacheFind_cacheSet_other (now : Nat) (c : NodeCache) (k k' : String)
    (v : List Nat) (ttl : Nat) (hne : k' ≠ k) :
    cacheFind (cacheSet now c k v ttl) k' = cacheFind c k' := by
  have hk : (k == k') = false := by
    simp only [beq_eq_false_iff_ne, ne_eq]
    exact fun he => hne he.symm
  simp only [cacheFind, cacheSet, List.find?_cons, hk]
  rw [find?_filter_ne c.entries k k' hne]

/-- When the token is not yet expired, `addClaimsForToken` is a `set`
with time-to-live `min (expiry - now) stdTTL`. -/
theorem addClaimsForToken_eq_set (provider : ClaimsProvider) (now : Nat)
    (c : NodeCache) (hash : String) (claims : ApiClaims)
    (h : now < claims.token.expiry) :
    addClaimsForToken provider now c hash claims =
      cacheSet now c hash (provider.serializeToCache claims)
        (min (claims.token.expiry - now) c.stdTTL) := by
  have hpos : (0 : Int) < (claims.token.expiry : Int) - (now : Int) := by omega
  have hmin : ((if (claims.token.expiry : Int) - (now : Int) > (c.stdTTL : Int)
        then (c.stdTTL : Int) else (claims.token.expiry : Int) - (now : Int))).toNat =
      min (claims.token.expiry - now) c.stdTTL := by
    split <;> omega
  simp only [addClaimsForToken, gt_iff_lt, if_pos hpos, hmin]

end ClaimsCacheModel

/-- C2: when the token expiry is at or before the current time,
`addClaimsForToken` leaves the cache unchanged, so a later lookup of a
digest the cache did not hold returns absent. -/
theorem addClaimsForToken_expired_token_not_stored
    (provider : ClaimsCacheModel.ClaimsProvider) (now now' : Nat)
    (c : ClaimsCacheModel.NodeCache) (hash : String)
    (claims : ClaimsCacheModel.ApiClaims)
    (h : claims.token.expiry ≤ now) :
    ClaimsCacheModel.addClaimsForToken provider now c hash claims = c ∧
    (ClaimsCacheModel.cacheFind c hash = none →
      ClaimsCacheModel.getClaimsForToken provider now'
        (ClaimsCacheModel.addClaimsForToken provider now c hash claims) hash = none) := by
  have hneg : ¬ ((0 : Int) < (claims.token.expiry : Int) - (now : Int)) := by omega
  have hid : ClaimsCacheModel.addClaimsForToken provider now c hash claims = c := by
    simp only [ClaimsCacheModel.addClaimsForToken, gt_iff_lt, if_neg hneg]
  refine ⟨hid, fun hfind => ?_⟩
  rw [hid]
  simp [ClaimsCacheModel.getClaimsForToken, ClaimsCacheModel.cacheGet, hfind]

/-- C2 witness: an already-expired token (expiry 50, now 100) is not
stored, and the follow-up lookup misses. -/
theorem addClaimsForToken_expired_token_not_stored_witness :
    ClaimsCacheModel.getClaimsForToken ClaimsCacheModel.sampleProvider 101
      (ClaimsCacheModel.addClaimsForToken ClaimsCacheModel.sampleProvider 100
        { stdTTL := 300, entries := [] } "h"
        { token := { expiry := 50 }, userId := "bob" }) "h" = none :=
  (addClaimsForToken_expired_token_not_stored ClaimsCacheModel.sampleProvider 100 101
    { stdTTL := 300, entries := [] } "h"
    { token := { expiry := 50 }, userId := "bob" } (by decide)).2 (by decide)

/-- C3: every entry stored by `addClaimsForToken` carries time-to-live
`min (tokenExpiry - now, stdTTL)`, and in particular at most the
configured maximum. -/
theorem addClaimsForToken_ttl_min
    (provider : ClaimsCacheModel.ClaimsProvider) (now : Nat)
    (c : ClaimsCacheModel.NodeCache) (hash : String)
    (claims : ClaimsCacheModel.ApiClaims)
    (h : now < claims.token.expiry) :
    ∃ e, ClaimsCacheModel.cacheFind
        (ClaimsCacheModel.addClaimsForToken provider now c hash claims) hash = some e ∧
      e.ttl = min (claims.token.expiry - now) c.stdTTL ∧
      e.ttl ≤ c.stdTTL := by
  rw [ClaimsCacheModel.addClaimsForToken_eq_set provider now c hash claims h]
  rw [ClaimsCacheModel.cacheFind_cacheSet_self]
  exact ⟨_, rfl, rfl, Nat.min_le_right _ _⟩

/-- C3 witness: configured maximum 300 seconds, token expiry 3600 seconds
ahead — the stored time-to-live is 300. -/
theorem addClaimsForToken_ttl_min_witness :
    ∃ e, ClaimsCacheModel.cacheFind
        (ClaimsCacheModel.addClaimsForToken ClaimsCacheModel.sampleProvider 1000
          { stdTTL := 300, entries := [] } "h"
          { token := { expiry := 4600 }, userId := "" }) "h" = some e ∧
      e.ttl = min (4600 - 1000) 300 ∧
      e.ttl ≤ 300 :=
  addClaimsForToken_ttl_min ClaimsCacheModel.sampleProvider 1000
    { stdTTL := 300, entries := [] } "h"
    { token := { expiry := 4600 }, userId := "" } (by decide)

/-- C8 counterexample: with maximum ttl 300, a first put at time 1000 for
a token expiring at 4600 fixes the entry's expiry instant at 1300, but a
second `addClaimsForToken` for the same digest at time 1100 overwrites
the entry and moves its expiry instant to 1400 — the stored lifetime is
not fixed once stored. -/
theorem claimsCache_ttl_fixed_counterexample :
    (ClaimsCacheModel.cacheFind
        (ClaimsCacheModel.addClaimsForToken ClaimsCacheModel.sampleProvider 1000
          { stdTTL := 300, entries := [] } "h"
          { token := { expiry := 4600 }, userId := "" }) "h").map
        ClaimsCacheModel.CacheEntry.expiresAt = some 1300 ∧
    (ClaimsCacheModel.cacheFind
        (ClaimsCacheModel.addClaimsForToken ClaimsCacheModel.sampleProvider 1100
          (ClaimsCacheModel.addClaimsForToken ClaimsCacheModel.sampleProvider 1000
            { stdTTL := 300, entries := [] } "h"
            { token := { expiry := 4600 }, userId := "" }) "h"
          { token := { expiry := 4600 }, userId := "" }) "h").map
        ClaimsCacheModel.CacheEntry.expiresAt = some 1400 ∧
    (some 1300 : Option Nat) ≠ some 1400 := by
  decide

/-- C8 amended: a stored entry's time-to-live and expiry instant are
unchanged by every later `addClaimsForToken` for a different digest; only
a later put for the same digest overwrites them. -/
theorem addClaimsForToken_other_key_preserves
    (provider : ClaimsCacheModel.ClaimsProvider) (now : Nat)
    (c : ClaimsCacheModel.NodeCache) (hash hash' : String)
    (claims : ClaimsCacheModel.ApiClaims)
    (hne : hash ≠ hash') :
    ClaimsCacheModel.cacheFind
        (ClaimsCacheModel.addClaimsForToken provider now c hash' claims) hash =
      ClaimsCacheModel.cacheFind c hash := by
  simp only [ClaimsCacheModel.addClaimsForToken]
  split
  · exact ClaimsCacheModel.cacheFind_cacheSet_other now c hash' hash _ _ hne
  · rfl

/-- C8 amended witness: a put under digest `g` leaves the entry stored
under digest `h` untouched. -/
theorem addClaimsForToken_other_key_preserves_witness :
    ClaimsCacheModel.cacheFind
        (ClaimsCacheModel.addClaimsForToken ClaimsCacheModel.sampleProvider 1100
          (ClaimsCacheModel.addClaimsForToken ClaimsCacheModel.sampleProvider 1000
            { stdTTL := 300, entries := [] } "h"
            { token := { expiry := 4600 }, userId := "" }) "g"
          { token := { expiry := 4600 }, userId := "" }) "h" =
      ClaimsCacheModel.cacheFind
        (ClaimsCacheModel.addClaimsForToken ClaimsCacheModel.sampleProvider 1000
          { stdTTL := 300, entries := [] } "h"
          { token := { expiry := 4600 }, userId := "" }) "h" :=
  addClaimsForToken_other_key_preserves ClaimsCacheModel.sampleProvider 1100 _ "h" "g"
    { token := { expiry := 4600 }, userId := "" } (by decide)

namespace ClaimsCacheModel

/-- The baseline protocol claims handed to the claims assembler after
token validation. -/
structure BaseClaims where
  subject : String
  expiry : Nat
  deriving DecidableEq, Repr

/-- Modelled from the spec: the resolving step of
`ClaimsCachingAuthorizer` — compute the token digest, use cached claims
on a hit, and on a miss invoke the claims assembler and store the result
keyed by the digest.  The third component counts assembler invocations. -/
def claimsCachingResolve (provider : ClaimsProvider)
    (assemble : BaseClaims → ApiClaims) (now : Nat) (c : NodeCache)
    (hash : String) (base : BaseClaims) : ApiClaims × NodeCache × Nat :=
  match getClaimsForToken provider now c hash with
  | some claims => (claims, c, 0)
  | none =>
      let claims := assemble base
      (claims, addClaimsForToken provider now c hash claims, 1)

/-- A cache read on a key holding a live entry with a non-empty stored
text deserializes that text. -/
theorem getClaimsForToken_of_find (provider : ClaimsProvider) (now : Nat)
    (c : NodeCache) (hash : String) (e : CacheEntry)
    (hfind : cacheFind c hash = some e) (hl : entryLive now e = true)
    (hv : e.value ≠ []) :
    getClaimsForToken provider now c hash =
      some (provider.deserializeFromCache e.value) := by
  simp only [getClaimsForToken, cacheGet, hfind]
  rw [if_pos hl]
  show (if e.value = [] then none
        else some (provider.deserializeFromCache e.value)) =
    some (provider.deserializeFromCache e.value)
  rw [if_neg hv]

end ClaimsCacheModel

/-- C9: under the claims-caching strategy, a first request for a fresh
token invokes the assembler once, and a second request with the same
token digest inside the stored entry's ttl window returns the same
resolved claims from the cache with zero assembler invocations, provided
the provider's deserialize inverts its serialize on those claims. -/
theorem claimsCachingResolve_second_request_hits_cache
    (provider : ClaimsCacheModel.ClaimsProvider)
    (assemble : ClaimsCacheModel.BaseClaims → ClaimsCacheModel.ApiClaims)
    (now now' : Nat) (c : ClaimsCacheModel.NodeCache) (hash : String)
    (base : ClaimsCacheModel.BaseClaims)
    (hmiss : ClaimsCacheModel.cacheFind c hash = none)
    (hround : provider.deserializeFromCache (provider.serializeToCache (assemble base)) =
      assemble base)
    (hne : provider.serializeToCache (assemble base) ≠ [])
    (hvalid : now < (assemble base).token.expiry)
    (hwin : now' ≤ now + min ((assemble base).token.expiry - now) c.stdTTL) :
    (ClaimsCacheModel.claimsCachingResolve provider assemble now c hash base).2.2 = 1 ∧
    ClaimsCacheModel.claimsCachingResolve provider assemble now'
        (ClaimsCacheModel.claimsCachingResolve provider assemble now c hash base).2.1
        hash base =
      ((ClaimsCacheModel.claimsCachingResolve provider assemble now c hash base).1,
       (ClaimsCacheModel.claimsCachingResolve provider assemble now c hash base).2.1,
       0) := by
  have h1 : ClaimsCacheModel.getClaimsForToken provider now c hash = none := by
    simp [ClaimsCacheModel.getClaimsForToken, ClaimsCacheModel.cacheGet, hmiss]
  have hres1 : ClaimsCacheModel.claimsCachingResolve provider assemble now c hash base =
      (assemble base,
       ClaimsCacheModel.addClaimsForToken provider now c hash (assemble base), 1) := by
    simp [ClaimsCacheModel.claimsCachingResolve, h1]
  have hfind : ClaimsCacheModel.cacheFind
      (ClaimsCacheModel.addClaimsForToken provider now c hash (assemble base)) hash =
      some { value := provider.serializeToCache (assemble base)
             ttl := min ((assemble base).token.expiry - now) c.stdTTL
             expiresAt :=
               if min ((assemble base).token.expiry - now) c.stdTTL = 0 then 0
               else now + min ((assemble base).token.expiry - now) c.stdTTL } := by
    rw [ClaimsCacheModel.addClaimsForToken_eq_set provider now c hash (assemble base) hvalid]
    exact ClaimsCacheModel.cacheFind_cacheSet_self _ _ _ _ _
  have hlive : ClaimsCacheModel.entryLive now'
      { value := provider.serializeToCache (assemble base)
        ttl := min ((assemble base).token.expiry - now) c.stdTTL
        expiresAt :=
          if min ((assemble base).token.expiry - now) c.stdTTL = 0 then 0
          else now + min ((assemble base).token.expiry - now) c.stdTTL } = true := by
    by_cases h0 : min ((assemble base).token.expiry - now) c.stdTTL = 0
    · simp [ClaimsCacheModel.entryLive, h0]
    · simp [ClaimsCacheModel.entryLive, h0, hwin]
  have h2 : ClaimsCacheModel.getClaimsForToken provider now'
      (ClaimsCacheModel.addClaimsForToken provider now c hash (assemble base)) hash =
      some (assemble base) := by
    rw [ClaimsCacheModel.getClaimsForToken_of_find provider now' _ hash _ hfind hlive hne,
        hround]
  refine ⟨by rw [hres1], ?_⟩
  rw [hres1]
  simp [ClaimsCacheModel.claimsCachingResolve, h2]

/-- C9 witness: a concrete provider, assembler and token — the first
request assembles and caches, the second request ten seconds later
returns the identical claims without assembling. -/
theorem claimsCachingResolve_second_request_hits_cache_witness :
    (ClaimsCacheModel.claimsCachingResolve ClaimsCacheModel.sampleProvider
        (fun _ => { token := { expiry := 100 }, userId := "bob" }) 10
        { stdTTL := 300, entries := [] } "h"
        { subject := "bob", expiry := 100 }).2.2 = 1 ∧
    ClaimsCacheModel.claimsCachingResolve ClaimsCacheModel.sampleProvider
        (fun _ => { token := { expiry := 100 }, userId := "bob" }) 20
        (ClaimsCacheModel.claimsCachingResolve ClaimsCacheModel.sampleProvider
          (fun _ => { token := { expiry := 100 }, userId := "bob" }) 10
          { stdTTL := 300, entries := [] } "h"
          { subject := "bob", expiry := 100 }).2.1 "h"
        { subject := "bob", expiry := 100 } =
      ((ClaimsCacheModel.claimsCachingResolve ClaimsCacheModel.sampleProvider
          (fun _ => { token := { expiry := 100 }, userId := "bob" }) 10
          { stdTTL := 300, entries := [] } "h"
          { subject := "bob", expiry := 100 }).1,
       (ClaimsCacheModel.claimsCachingResolve ClaimsCacheModel.sampleProvider
          (fun _ => { token := { expiry := 100 }, userId := "bob" }) 10
          { stdTTL := 300, entries := [] } "h"
          { subject := "bob", expiry := 100 }).2.1,
       0) :=
  claimsCachingResolve_second_request_hits_cache ClaimsCacheModel.sampleProvider
    (fun _ => { token := { expiry := 100 }, userId := "bob" }) 10 20
    { stdTTL := 300, entries := [] } "h" { subject := "bob", expiry := 100 }
    (by decide) (by decide) (by decide) (by decide) (by decide)

namespace WebApi

/-- An HTTP response as written by the API's response writer: the status
code and the external body. -/
structure HttpResponse where
  status : Nat
  body : String
  deriving DecidableEq, Repr

/-- Modelled from the spec: `ResponseWriter.writeInvalidTokenResponse` —
any authentication failure is written as a 401 with one fixed generic
body that does not reveal which check failed. -/
def writeInvalidTokenResponse : HttpResponse :=
  { status := 401, body := "invalid_token" }

/-- Modelled from the spec: `ErrorHandler.handleError` as reached from
`unhandledExceptionHandler` — full detail is logged internally and the
client receives the typed error's status with a generic external
message. -/
def handleError (e : ClaimsHandler.ApiError) : HttpResponse :=
  { status := e.statusCode, body := "internal_server_error" }

/-- The outcome classes of the authorization state machine for one
request; an upstream failure carries the failing remote call's error
category. -/
inductive AuthOutcome
  | success
  | noToken
  | tokenInvalid
  | upstreamUnavailable (code : ClaimsHandler.ApiErrorCode)
  deriving DecidableEq, Repr

/-- The value `authorizeRequestAndSetClaims` produces inside
`authorizationHandler`: `true`/`false` for the authorization decision,
while upstream failures are thrown and carried to the exception
middleware as typed 500 errors.  Modelled from the spec for the missing
`ClaimsMiddleware` class. -/
inductive MiddlewareResult
  | succeeded
  | denied
  | threw (e : ClaimsHandler.ApiError)
  deriving DecidableEq, Repr

/-- Modelled from the spec: `ClaimsMiddleware` returns `false` for a
missing, expired or invalid token and throws for an upstream failure. -/
def middlewareResultOf : AuthOutcome → MiddlewareResult
  | AuthOutcome.success => MiddlewareResult.succeeded
  | AuthOutcome.noToken => MiddlewareResult.denied
  | AuthOutcome.tokenInvalid => MiddlewareResult.denied
  | AuthOutcome.upstreamUnavailable code =>
      MiddlewareResult.threw { code := code, statusCode := 500 }

/-- What the middleware stack does with one request after authorization. -/
inductive PipelineStep
  | continueToHandler
  | respond (r : HttpResponse)
  deriving DecidableEq, Repr

/-- Model of `WebApi.authorizationHandler` as mounted inside the `catcher`
wrapper: success calls `next()`, a denied authorization writes the
invalid-token response, and a thrown error is forwarded to
`unhandledExceptionHandler`. -/
def authorizationHandler (o : AuthOutcome) : PipelineStep :=
  match middlewareResultOf o with
  | MiddlewareResult.succeeded => PipelineStep.continueToHandler
  | MiddlewareResult.denied => PipelineStep.respond writeInvalidTokenResponse
  | MiddlewareResult.threw e => PipelineStep.respond (handleError e)

end WebApi

/-- C5: `NoToken` and `TokenInvalid` both produce the identical generic
401 response (so the body cannot reveal which check failed), every
`UpstreamUnavailable` outcome produces a 500 response, and the two status
codes are distinct — an outcome class never yields both. -/
theorem authorizationHandler_response_mapping :
    WebApi.authorizationHandler WebApi.AuthOutcome.noToken =
      WebApi.PipelineStep.respond WebApi.writeInvalidTokenResponse ∧
    WebApi.authorizationHandler WebApi.AuthOutcome.tokenInvalid =
      WebApi.PipelineStep.respond WebApi.writeInvalidTokenResponse ∧
    WebApi.writeInvalidTokenResponse.status = 401 ∧
    (∀ code, WebApi.authorizationHandler (WebApi.AuthOutcome.upstreamUnavailable code) =
      WebApi.PipelineStep.respond { status := 500, body := "internal_server_error" }) ∧
    (401 : Nat) ≠ 500 :=
  ⟨rfl, rfl, rfl, fun _ => rfl, by decide⟩

namespace ErrorUtils

/-- The REST API error of `framework-api-base`: error code, message, the
HTTP status it surfaces as, and the details attached via `setDetails`. -/
structure ApiError where
  errorCode : String
  message : String
  statusCode : Nat
  details : String
  deriving DecidableEq, Repr

/-- An error with a status and payload the client is meant to see. -/
structure ClientError where
  statusCode : Nat
  errorCode : String
  message : String
  deriving DecidableEq, Repr

/-- The technology-neutral custom exception of `framework-base`. -/
structure ExtendedError where
  code : String
  message : String
  details : Option String
  deriving DecidableEq, Repr

/-- An exception reaching `ErrorUtils.fromException`: one of the
taxonomy's typed errors, or any other value (carrying whatever message
`_getExceptionDetailsMessage` recovers from it). -/
inductive Exn
  | api (e : ApiError)
  | extended (e : ExtendedError)
  | client (e : ClientError)
  | other (message : String)
  deriving DecidableEq, Repr

/-- Model of `BaseErrorCodes.serverError`, the default error code of
`createApiError`. -/
def serverError : String := "server_error"

/-- Model of `ErrorUtils._getExceptionDetailsMessage`: the exception's message
(the `toString` fallback for message-less objects collapses to the
carried message in this model). -/
def getExceptionDetailsMessage : Exn → String
  | Exn.api e => e.message
  | Exn.extended e => e.message
  | Exn.client e => e.message
  | Exn.other m => m

/-- Modelled from the spec: `ErrorFactory.createApiError` — constructs a
typed API error that surfaces as an HTTP 500 upstream/internal failure. -/
def factoryCreateApiError (code : String) (message : String) : ApiError :=
  { errorCode := code, message := message, statusCode := 500, details := "" }

/-- Model of `ErrorUtils.createApiError`: defaults the code to
`BaseErrorCodes.serverError` and the message to the generic text, then
attaches the exception's details. -/
def createApiError (exception : Exn) (errorCode : Option String)
    (message : Option String) : ApiError :=
  let e := factoryCreateApiError (errorCode.getD serverError)
    (message.getD "An unexpected exception occurred in the API")
  { e with details := getExceptionDetailsMessage exception }

/-- Model of `ErrorUtils.tryConvertToApiError`: pass an `ApiError` through
unchanged, convert an `ExtendedError`, reject everything else. -/
def tryConvertToApiError : Exn → Option ApiError
  | Exn.api e => some e
  | Exn.extended e =>
      let a := factoryCreateApiError e.code e.message
      some (match e.details with
            | some d => { a with details := d }
            | none => a)
  | _ => none

/-- Model of `ErrorUtils.tryConvertToClientError`: pass a `ClientError` through. -/
def tryConvertToClientError : Exn → Option ClientError
  | Exn.client e => some e
  | _ => none

/-- Model of `ErrorUtils.fromException`: try the API error conversion, then the
client error conversion, and otherwise build the default server error. -/
def fromException (exception : Exn) : ApiError ⊕ ClientError :=
  match tryConvertToApiError exception with
  | some e => Sum.inl e
  | none =>
      match tryConvertToClientError exception with
      | some c => Sum.inr c
      | none => Sum.inl (createApiError exception none none)

end ErrorUtils

/-- C6: every exception outside the typed taxonomy is converted to the
default server error — error code `server_error`, HTTP 500 — so the
default path of authorization error handling fails closed and never
produces a success. -/
theorem fromException_default_fail_closed :
    ∀ m : String,
      ErrorUtils.fromException (ErrorUtils.Exn.other m) =
        Sum.inl { errorCode := ErrorUtils.serverError
                  message := "An unexpected exception occurred in the API"
                  statusCode := 500
                  details := m } :=
  fun _ => rfl

namespace ClaimsHandler

/-- The discovery-document fields the sample uses. -/
structure Metadata where
  introspection_endpoint : String
  userinfo_endpoint : String
  deriving DecidableEq, Repr

/-- The module-level memoized metadata (`let metadata = null`). -/
structure MetadataState where
  metadata : Option Metadata
  deriving DecidableEq, Repr

/-- The authorization server's response to one discovery request. -/
inductive DiscoveryResult
  | success (m : Metadata)
  | failure
  deriving DecidableEq, Repr

/-- Modelled from the spec: `ErrorHandler.fromMetadataError` — a
discovery failure is an upstream 500 failure. -/
def fromMetadataError : ApiError :=
  { code := ApiErrorCode.metadataLookupFailure, statusCode := 500 }

/-- Model of `ClaimsHandler._getMetadata`: with memoized metadata, resolve it at
once; otherwise issue the discovery request and memoize the result.  The
third component records whether a discovery request was made. -/
def getMetadata (s : MetadataState) (net : DiscoveryResult) :
    MetadataState × Except ApiError Metadata × Bool :=
  match s.metadata with
  | some m => (s, Except.ok m, false)
  | none =>
      match net with
      | DiscoveryResult.success m => ({ metadata := some m }, Except.ok m, true)
      | DiscoveryResult.failure => (s, Except.error fromMetadataError, true)

/-- A sequence of `_getMetadata` calls across the process lifetime,
returning the final state and the number of discovery requests made. -/
def runGetMetadata : MetadataState → List DiscoveryResult → MetadataState × Nat
  | s, [] => (s, 0)
  | s, net :: rest =>
      let r := getMetadata s net
      let rest' := runGetMetadata r.1 rest
      (rest'.1, (if r.2.2 then 1 else 0) + rest'.2)

end ClaimsHandler

namespace WebApi

/-- Modelled from the spec: `IssuerMetadata.load` — resolves the
authority's endpoint URLs from the discovery document once at startup;
a failure is fatal. -/
def issuerMetadataLoad :
    ClaimsHandler.DiscoveryResult →
      Except ClaimsHandler.ApiError ClaimsHandler.Metadata
  | ClaimsHandler.DiscoveryResult.success m => Except.ok m
  | ClaimsHandler.DiscoveryResult.failure =>
      Except.error ClaimsHandler.fromMetadataError

/-- A running server able to serve authorized requests. -/
structure ServerState where
  issuerMetadata : Option ClaimsHandler.Metadata
  deriving DecidableEq, Repr

/-- The startup path: `initializeApi` awaits `WebApi.initialize` (which
loads the issuer metadata), and the server only starts listening when
initialization completed; a startup error leaves the service not
serving. -/
def startServer (net : ClaimsHandler.DiscoveryResult) : Option ServerState :=
  match issuerMetadataLoad net with
  | Except.ok m => some { issuerMetadata := some m }
  | Except.error _ => none

end WebApi

/-- C7: once the module-level metadata is memoized, every later
`_getMetadata` call returns it without any discovery request (so after
the first successful fetch no further fetch ever happens), and a server
that reached the serving state has its issuer metadata resolved. -/
theorem metadata_memoized_and_required_for_serving
    (s : ClaimsHandler.MetadataState) (m : ClaimsHandler.Metadata)
    (nets : List ClaimsHandler.DiscoveryResult)
    (h : s.metadata = some m) :
    (∀ net, ClaimsHandler.getMetadata s net = (s, Except.ok m, false)) ∧
    ClaimsHandler.runGetMetadata s nets = (s, 0) ∧
    (∀ net st, WebApi.startServer net = some st → st.issuerMetadata ≠ none) := by
  have hone : ∀ net, ClaimsHandler.getMetadata s net = (s, Except.ok m, false) := by
    intro net
    simp [ClaimsHandler.getMetadata, h]
  refine ⟨hone, ?_, ?_⟩
  · induction nets with
    | nil => rfl
    | cons net rest ih =>
        simp [ClaimsHandler.runGetMetadata, hone net, ih]
  · intro net st hst
    cases net with
    | success m' =>
        simp [WebApi.startServer, WebApi.issuerMetadataLoad] at hst
        simp [← hst]
    | failure => simp [WebApi.startServer, WebApi.issuerMetadataLoad] at hst

/-- C7 witness: with metadata already memoized, two further validation
calls (one of them even seeing a network failure) perform zero discovery
requests. -/
theorem metadata_memoized_and_required_for_serving_witness :
    ClaimsHandler.runGetMetadata
      { metadata := some { introspection_endpoint := "i", userinfo_endpoint := "u" } }
      [ClaimsHandler.DiscoveryResult.failure,
       ClaimsHandler.DiscoveryResult.success
         { introspection_endpoint := "x", userinfo_endpoint := "y" }] =
      ({ metadata := some { introspection_endpoint := "i", userinfo_endpoint := "u" } }, 0) :=
  (metadata_memoized_and_required_for_serving
    { metadata := some { introspection_endpoint := "i", userinfo_endpoint := "u" } }
    { introspection_endpoint := "i", userinfo_endpoint := "u" }
    [ClaimsHandler.DiscoveryResult.failure,
     ClaimsHandler.DiscoveryResult.success
       { introspection_endpoint := "x", userinfo_endpoint := "y" }] rfl).2.1

namespace BaseCompositionRoot

/-- The OAuth configuration fields consulted during registration. -/
structure OAuthConfiguration where
  strategy : String
  tokenValidationStrategy : String
  claimsCacheTimeToLiveMinutes : Nat
  jwksEndpoint : String
  deriving DecidableEq, Repr

/-- The two authorizer variants the composition root can create. -/
inductive AuthorizerKind
  | claimsCachingAuthorizer
  | standardAuthorizer
  deriving DecidableEq, Repr

/-- The two token-validator variants it can bind. -/
inductive ValidatorKind
  | introspectionValidator
  | jwtValidator
  deriving DecidableEq, Repr

/-- What `register` leaves bound in the container: the chosen authorizer
and validator, whether the singleton claims cache was registered, and
whether the singleton JWKS client was registered. -/
structure Registration where
  authorizer : AuthorizerKind
  validator : ValidatorKind
  claimsCacheRegistered : Bool
  jwksClientRegistered : Bool
  deriving DecidableEq, Repr

/-- Model of `_registerOAuthDependencies`: the claims-caching authorizer exactly
for the strategy string `claims-caching`, otherwise the standard
authorizer; the introspection validator exactly for the token-validation
strategy string `introspection`, otherwise the JWT validator together
with the singleton JWKS client.  No value is rejected. -/
def registerOAuthDependencies (cfg : OAuthConfiguration) :
    AuthorizerKind × ValidatorKind × Bool :=
  let authorizer :=
    if cfg.strategy = "claims-caching" then AuthorizerKind.claimsCachingAuthorizer
    else AuthorizerKind.standardAuthorizer
  if cfg.tokenValidationStrategy = "introspection" then
    (authorizer, ValidatorKind.introspectionValidator, false)
  else
    (authorizer, ValidatorKind.jwtValidator, true)

/-- Model of `_registerClaimsDependencies`: the singleton claims cache is created
and bound exactly when the strategy is `claims-caching`. -/
def registerClaimsDependencies (cfg : OAuthConfiguration) : Bool :=
  cfg.strategy == "claims-caching"

/-- Model of `BaseCompositionRoot.register`, restricted to the OAuth and claims
registrations. -/
def register (cfg : OAuthConfiguration) : Registration :=
  let oauth := registerOAuthDependencies cfg
  { authorizer := oauth.1
    validator := oauth.2.1
    jwksClientRegistered := oauth.2.2
    claimsCacheRegistered := registerClaimsDependencies cfg }

end BaseCompositionRoot

/-- C10: strategy selection is total — for every configuration value,
the claims-caching authorizer and the singleton claims cache are chosen
exactly when `strategy` is the string `claims-caching` (anything else
silently selects the standard authorizer without a cache), and the
introspection validator is chosen exactly when
`tokenValidationStrategy` is `introspection` (anything else selects the
JWT validator). -/
theorem register_strategy_selection (cfg : BaseCompositionRoot.OAuthConfiguration) :
    ((BaseCompositionRoot.register cfg).authorizer =
        BaseCompositionRoot.AuthorizerKind.claimsCachingAuthorizer ↔
      cfg.strategy = "claims-caching") ∧
    ((BaseCompositionRoot.register cfg).claimsCacheRegistered = true ↔
      cfg.strategy = "claims-caching") ∧
    ((BaseCompositionRoot.register cfg).validator =
        BaseCompositionRoot.ValidatorKind.introspectionValidator ↔
      cfg.tokenValidationStrategy = "introspection") ∧
    ((BaseCompositionRoot.register cfg).authorizer =
        BaseCompositionRoot.AuthorizerKind.standardAuthorizer ↔
      ¬ cfg.strategy = "claims-caching") ∧
    ((BaseCompositionRoot.register cfg).validator =
        BaseCompositionRoot.ValidatorKind.jwtValidator ↔
      ¬ cfg.tokenValidationStrategy = "introspection") := by
  by_cases hs : cfg.strategy = "claims-caching" <;>
    by_cases ht : cfg.tokenValidationStrategy = "introspection" <;>
      simp [BaseCompositionRoot.register, BaseCompositionRoot.registerOAuthDependencies,
            BaseCompositionRoot.registerClaimsDependencies, hs, ht]
